import Mathlib

/-!
Verification of the timeline-synchronization and audio-composition engine of
`shortGPT/engine/quiz_video_engine.py` (class `QuizVideoEngine`).

The Python code is shallowly embedded: times are rationals, Python strings are
`List Char`, stateful helpers become pure functions on explicit arguments, and
external ffmpeg invocations are modelled by the durations / operation traces
they produce according to the documented tool contract (`adelay`, `amix`
`duration=longest`, `atempo`, `loudnorm`, `-ss`/`-t` extraction).
-/

unseal Rat.add Rat.mul Rat.sub Rat.inv Rat.ofScientific

namespace ShortGPT

/-! ### Python character classes and string helpers -/

/-- Python `\d` (ASCII). -/
def isPyDigit (c : Char) : Bool := '0' ≤ c && c ≤ '9'

/-- Python `\w` (ASCII fragment: letters, digits, underscore). -/
def isPyWord (c : Char) : Bool := c.isAlpha || isPyDigit c || c = '_'

/-- Python `\s` / `str.strip` whitespace (ASCII). -/
def isPySpace (c : Char) : Bool :=
  c = ' ' || c = '\t' || c = '\n' || c = '\r' || c = '\x0b' || c = '\x0c'

/-- Python `str.lower` on ASCII letters. -/
def toLowerAscii (c : Char) : Char :=
  if 'A' ≤ c && c ≤ 'Z' then Char.ofNat (c.toNat + 32) else c

/-- Python `str.strip()`. -/
def pyStrip (l : List Char) : List Char :=
  ((l.dropWhile isPySpace).reverse.dropWhile isPySpace).reverse

/-- Python `str.split('\n')` (keeps empty pieces). -/
def splitNL : List Char → List (List Char)
  | [] => [[]]
  | c :: cs =>
    if c = '\n' then [] :: splitNL cs
    else
      match splitNL cs with
      | [] => [[c]]
      | l :: ls => (c :: l) :: ls

/-- Numeric value of a run of decimal digits. -/
def natFromDigits (ds : List Char) : ℕ :=
  ds.foldl (fun n c => 10 * n + (c.toNat - 48)) 0

/-- Python `float` of a string matching `\d+\.?\d*` (integer part `ds`,
fractional part `fs`). -/
def decimalValue (ds fs : List Char) : ℚ :=
  (natFromDigits ds : ℚ) + (natFromDigits fs : ℚ) / (10 ^ fs.length)

/-- Reads a maximal `\d+\.?\d*` token at the head of the list, returning its
value and the rest of the input (the greedy behaviour of the regex engine). -/
def readNumber (cs : List Char) : Option (ℚ × List Char) :=
  let p := cs.span isPyDigit
  if p.1.isEmpty then none
  else
    match p.2 with
    | '.' :: t =>
      let q := t.span isPyDigit
      some (decimalValue p.1 q.1, q.2)
    | r => some (decimalValue p.1 [], r)

/-! ### Script parsing (`_parse_quiz_script`) -/

/-- One parsed quiz component (a Python dict with keys `start_time`,
`end_time`, `content`, `type`). -/
structure Component where
  start_time : ℚ
  end_time : ℚ
  content : List Char
  ctype : List Char
deriving DecidableEq

/-- `re.match(r'\[(\d+\.?\d*)-(\d+\.?\d*)\]\s*(\w+):\s*(.+)', line)` applied to
an already-stripped line, returning `(start, end, lowercased kind, content)`.
For lines without `'\n'` the greedy left-to-right scan below is equivalent to
the backtracking regex engine. -/
def matchTimestampLine (cs : List Char) : Option (ℚ × ℚ × List Char × List Char) :=
  match cs with
  | '[' :: r0 =>
    match readNumber r0 with
    | some (st, r1) =>
      match r1 with
      | '-' :: r2 =>
        match readNumber r2 with
        | some (en, r3) =>
          match r3 with
          | ']' :: r4 =>
            let r5 := r4.dropWhile isPySpace
            let kp := r5.span isPyWord
            if kp.1.isEmpty then none
            else
              match kp.2 with
              | ':' :: r7 =>
                let content := r7.dropWhile isPySpace
                if content.isEmpty then none
                else some (st, en, kp.1.map toLowerAscii, content)
              | _ => none
          | _ => none
        | none => none
      | _ => none
    | none => none
  | _ => none

/-- The per-line loop of `_parse_quiz_script`: split into lines, strip each,
skip blanks and non-matching lines, build components in order. -/
def parseRawComponents (quiz_script : List Char) : List Component :=
  ((splitNL (pyStrip quiz_script)).map pyStrip).filterMap fun l =>
    if l.isEmpty then none
    else (matchTimestampLine l).map fun r => ⟨r.1, r.2.1, r.2.2.2, r.2.2.1⟩

/-- Ordering used by `components['all_components'].sort(key=lambda x: x['start_time'])`. -/
def compLE (a b : Component) : Prop := a.start_time ≤ b.start_time

instance : DecidableRel compLE := fun a b =>
  inferInstanceAs (Decidable (a.start_time ≤ b.start_time))

instance : IsTotal Component compLE := ⟨fun a b => le_total a.start_time b.start_time⟩

instance : IsTrans Component compLE := ⟨fun _ _ _ h1 h2 => le_trans h1 h2⟩

/-- The in-place `+= intro_duration` shift of a component's times. -/
def shiftC (d : ℚ) (c : Component) : Component :=
  { c with start_time := c.start_time + d, end_time := c.end_time + d }

/-- Result of `_parse_quiz_script`: the `components` dictionary.  Optional
fields model the backward-compatibility keys that are only present for
single-question quizzes. -/
structure QuizComponents where
  all_components : List Component
  questions : List Component
  countdowns : List Component
  answers : List Component
  ctas : List Component
  intro? : Option Component
  question? : Option Component
  countdown? : Option Component
  answer? : Option Component
  cta? : Option Component
deriving DecidableEq

/-- The backward-compatibility keys (`components['question']` and friends),
set only when there is exactly one question, countdown and answer. -/
def mkCompat (all qs cds ans cta : List Component) (intro : Option Component) :
    QuizComponents :=
  match qs, cds, ans with
  | [q], [cd], [a] =>
    ⟨all, qs, cds, ans, cta, intro, some q, some cd, some a, cta.head?⟩
  | _, _, _ => ⟨all, qs, cds, ans, cta, intro, none, none, none, none⟩

/-- `_parse_quiz_script(quiz_script)` with the engine fields `_intro_text` and
`_intro_duration` passed explicitly.  The per-kind lists share the shift with
`all_components` because the Python dicts are aliased. -/
def parseQuizScript (quiz_script intro_text : List Char) (intro_duration : ℚ) :
    QuizComponents :=
  let raw := parseRawComponents quiz_script
  let qs := raw.filter fun c => c.ctype = "question".data
  let cds := raw.filter fun c => c.ctype = "countdown".data
  let ans := raw.filter fun c => c.ctype = "answer".data
  let cta := raw.filter fun c => c.ctype = "cta".data
  if ¬intro_text.isEmpty ∧ 0 < intro_duration then
    let introComp : Component := ⟨0, intro_duration, intro_text, "intro".data⟩
    let all := List.insertionSort compLE (introComp :: raw.map (shiftC intro_duration))
    mkCompat all (qs.map (shiftC intro_duration)) (cds.map (shiftC intro_duration))
      (ans.map (shiftC intro_duration)) (cta.map (shiftC intro_duration)) (some introComp)
  else
    mkCompat (List.insertionSort compLE raw) qs cds ans cta none

/-! ### Countdown segments -/

/-- `_generateCountdownSegmentsForComponent`: split `[start_time, end_time]`
into three equal thirds labelled `"3"`, `"2"`, `"1"`. -/
def generateCountdownSegmentsForComponent (c : Component) :
    List (ℚ × ℚ × List Char) :=
  let segment_duration := (c.end_time - c.start_time) / 3
  [ (c.start_time + 0 * segment_duration, c.start_time + (0 + 1) * segment_duration, "3".data),
    (c.start_time + 1 * segment_duration, c.start_time + (1 + 1) * segment_duration, "2".data),
    (c.start_time + 2 * segment_duration, c.start_time + (2 + 1) * segment_duration, "1".data) ]

/-- `_generateCountdownSegments`: reads `components.get('countdown')` and
returns `[]` when the backward-compatibility key is missing. -/
def generateCountdownSegments (p : QuizComponents) : List (ℚ × ℚ × List Char) :=
  match p.countdown? with
  | none => []
  | some ci =>
    let segment_duration := (ci.end_time - ci.start_time) / 3
    [ (ci.start_time + 0 * segment_duration, ci.start_time + (0 + 1) * segment_duration, "3".data),
      (ci.start_time + 1 * segment_duration, ci.start_time + (1 + 1) * segment_duration, "2".data),
      (ci.start_time + 2 * segment_duration, ci.start_time + (2 + 1) * segment_duration, "1".data) ]

/-- Public accessor `get_countdown_segments`. -/
def get_countdown_segments (p : QuizComponents) : List (ℚ × ℚ × List Char) :=
  generateCountdownSegments p

/-- The `total_duration` scan shared by `_get_quiz_duration` and
`_createCompositeAudioTrack`: running maximum of `end_time` starting at `0.0`. -/
def totalDuration (cs : List Component) : ℚ :=
  cs.foldl (fun total c => if total < c.end_time then c.end_time else total) 0

/-! ### Caption generation (`_generateQuizTimedCaptions`) -/

/-- Python `str.split()` helper: accumulate the current word (reversed). -/
def splitWsAux : List Char → List Char → List (List Char)
  | [], acc => if acc.isEmpty then [] else [acc.reverse]
  | c :: cs, acc =>
    if isPySpace c then
      if acc.isEmpty then splitWsAux cs [] else acc.reverse :: splitWsAux cs []
    else splitWsAux cs (c :: acc)

/-- Python `str.split()` (split on whitespace runs, discarding empties). -/
def pySplitWs (cs : List Char) : List (List Char) := splitWsAux cs []

/-- Fuel-indexed helper for `groupWords` (structural recursion so that the
kernel can evaluate it; the fuel is the word count, which always suffices). -/
def groupWordsGo (k : ℕ) : ℕ → List (List Char) → List (List (List Char))
  | _, [] => []
  | 0, _ => []
  | fuel + 1, w :: ws => (w :: ws.take k) :: groupWordsGo k fuel (ws.drop k)

/-- `words[i:i+chunk_size]` grouping for `i in range(0, len(words), chunk_size)`
with `chunk_size = k + 1`. -/
def groupWordsAux (k : ℕ) (ws : List (List Char)) : List (List (List Char)) :=
  groupWordsGo k ws.length ws

/-- Captions for one component: skip countdowns; emit the whole content when it
fits `max_len`, else split into word chunks with proportional sub-intervals. -/
def componentCaptions (format_vertical : Bool) (c : Component) :
    List ((ℚ × ℚ) × List Char) :=
  if c.ctype = "countdown".data then []
  else
    let max_len : ℕ := if format_vertical then 15 else 30
    if c.content.length ≤ max_len then [((c.start_time, c.end_time), c.content)]
    else
      let words := pySplitWs c.content
      let chunk_size := max_len / 8
      let duration := c.end_time - c.start_time
      let chunks := (groupWordsAux (chunk_size - 1) words).map (List.intercalate [' '])
      if chunks.isEmpty then []
      else
        let chunk_duration := duration / chunks.length
        chunks.enum.map fun ic =>
          ((c.start_time + ic.1 * chunk_duration,
            c.start_time + (ic.1 + 1) * chunk_duration), ic.2)

/-- `_generateQuizTimedCaptions`, including the fallback that rebuilds the
component list from the single-question keys when `all_components` is empty. -/
def generateQuizTimedCaptions (p : QuizComponents) (format_vertical : Bool) :
    List ((ℚ × ℚ) × List Char) :=
  let comps :=
    if p.all_components.isEmpty then
      [p.question?, p.countdown?, p.answer?, p.cta?].filterMap id
    else p.all_components
  comps.flatMap (componentCaptions format_vertical)

/-! ### Speech-duration fitting (`_generateComponentAudioFiles`) -/

/-- `f'{x:.3f}'`: rounding of the tempo factor to three decimals before it is
handed to ffmpeg's `atempo`. -/
def round3 (q : ℚ) : ℚ := (round (1000 * q) : ℤ) / 1000

/-- Result of fitting one component's normalized audio into its slot. -/
structure FitResult where
  duration : ℚ
  stretched : Bool
  speed_factor : ℚ
deriving DecidableEq

/-- The duration-fitting step of `_generateComponentAudioFiles`: when the
measured `actual_duration` is positive and `speed_factor > 1.0` the clip is
time-stretched by `atempo={speed_factor:.3f}` (modelled as exact tempo scaling,
so the output lasts `actual / round3 speed`); otherwise the normalized clip is
copied unchanged. -/
def fitComponentAudio (actual_duration required_duration : ℚ) : FitResult :=
  if 0 < actual_duration then
    let speed_factor := actual_duration / required_duration
    if 1 < speed_factor then
      ⟨actual_duration / round3 speed_factor, true, speed_factor⟩
    else ⟨actual_duration, false, speed_factor⟩
  else ⟨actual_duration, false, 0⟩

/-! ### Background-video window selection (`_calculate_video_timing`) -/

/-- `_calculate_video_timing(video_duration, quiz_duration)`.  The call
`random.uniform(0, max_start_time)` is modelled by `r * max_start_time` for an
arbitrary `r ∈ [0, 1]`. -/
def calculate_video_timing (video_duration quiz_duration r : ℚ) : ℚ × ℚ :=
  let qd := if quiz_duration ≤ 0 then 30 else quiz_duration
  if video_duration ≤ qd ∨ video_duration = 0 then
    (0, if 0 < video_duration then video_duration else qd)
  else
    let max_start0 := video_duration - qd
    let safety_margin := min (video_duration * (1 / 10)) 5
    let max_start := max 0 (max_start0 - safety_margin)
    let start := if 0 < max_start then r * max_start else 0
    (start, start + qd)

/-! ### Composite audio mixing (`_createCompositeAudioTrack`,
`_addSoundEffectsToMix`) -/

/-- Python `int()` truncation toward zero, used for `int(start_time * 1000)`. -/
def pyIntTrunc (q : ℚ) : ℤ := if 0 ≤ q then ⌊q⌋ else -⌊-q⌋

/-- One entry of `_db_component_audio_files`: slot times, component type and
the measured duration of the fitted audio file. -/
structure ComponentAudioInfo where
  start_time : ℚ
  end_time : ℚ
  ctype : List Char
  duration : ℚ
deriving DecidableEq

/-- Ordering for `sorted_components.sort(key=lambda x: x[0])`. -/
def caLE (a b : ComponentAudioInfo) : Prop := a.start_time ≤ b.start_time

instance : DecidableRel caLE := fun a b =>
  inferInstanceAs (Decidable (a.start_time ≤ b.start_time))

instance : IsTotal ComponentAudioInfo caLE := ⟨fun a b => le_total a.start_time b.start_time⟩

instance : IsTrans ComponentAudioInfo caLE := ⟨fun _ _ _ h1 h2 => le_trans h1 h2⟩

/-- One delayed input of the final `amix` invocation: its `adelay` offset in
milliseconds, its per-input `volume` gain and its stream duration. -/
structure MixInput where
  delay_ms : ℤ
  volume : ℚ
  duration : ℚ
deriving DecidableEq

/-- Duration of the stream produced by `ffmpeg -ss start -t len` on an input of
duration `audioDur` (clamped at both ends). -/
def extractedSegDuration (audioDur segStart segLen : ℚ) : ℚ :=
  max 0 (min segLen (audioDur - segStart))

/-- Mix inputs contributed by one component audio file: countdown files are cut
into three `-t segment_duration` pieces delayed to their own thirds; all other
files become a single delayed input with `volume=0.9`. -/
def fileMixInputs (f : ComponentAudioInfo) : List MixInput :=
  if f.ctype = "countdown".data then
    let segment_duration := (f.end_time - f.start_time) / 3
    (List.range 3).map fun (i : ℕ) =>
      ⟨pyIntTrunc ((f.start_time + (i : ℚ) * segment_duration) * 1000), 9 / 10,
        extractedSegDuration f.duration ((i : ℚ) * segment_duration) segment_duration⟩
  else [⟨pyIntTrunc (f.start_time * 1000), 9 / 10, f.duration⟩]

/-- The component part of the mix: files sorted by start time, then expanded. -/
def componentMixInputs (files : List ComponentAudioInfo) : List MixInput :=
  (List.insertionSort caLE files).flatMap fileMixInputs

/-- `_addSoundEffectsToMix` for one component.  `fxIntro`, `fxCountdown` and
`fxAnswer` are the durations of the three effect assets (`none` models a
missing/failed effect path, which skips that branch). -/
def soundEffectInputsFor (fxIntro fxCountdown fxAnswer : Option ℚ) (c : Component) :
    List MixInput :=
  if c.ctype = "intro".data then
    match fxIntro with
    | some d => [⟨pyIntTrunc (c.start_time * 1000), 7 / 10, d⟩]
    | none => []
  else if c.ctype = "countdown".data then
    match fxCountdown with
    | some d =>
      let segment_duration := (c.end_time - c.start_time) / 3
      (List.range 3).map fun (i : ℕ) =>
        ⟨pyIntTrunc ((c.start_time + (i : ℚ) * segment_duration) * 1000), 7 / 10, d⟩
    | none => []
  else if c.ctype = "answer".data then
    match fxAnswer with
    | some d => [⟨pyIntTrunc (c.start_time * 1000), 7 / 10, d⟩]
    | none => []
  else []

/-- All non-base inputs of the single `amix` call, in the order the code
appends them: components first, then (when enabled) the sound effects. -/
def buildMixInputs (comps : List Component) (files : List ComponentAudioInfo)
    (useFx : Bool) (fxIntro fxCountdown fxAnswer : Option ℚ) : List MixInput :=
  componentMixInputs files ++
    (if useFx then comps.flatMap (soundEffectInputsFor fxIntro fxCountdown fxAnswer) else [])

/-- End of a delayed input on the shared time axis (`adelay` is milliseconds). -/
def inputEnd (i : MixInput) : ℚ := (i.delay_ms : ℚ) / 1000 + i.duration

/-- Duration of the composite produced by `_createCompositeAudioTrack`: the
silence base lasts `total_duration` and `amix ... duration=longest` keeps the
longest of the base and all delayed inputs; with no inputs the silent base is
renamed.  The final `loudnorm` pass preserves duration. -/
def compositeAudioDuration (comps : List Component) (files : List ComponentAudioInfo)
    (useFx : Bool) (fxIntro fxCountdown fxAnswer : Option ℚ) : ℚ :=
  let total := totalDuration comps
  let inputs := buildMixInputs comps files useFx fxIntro fxCountdown fxAnswer
  if inputs.isEmpty then total
  else inputs.foldl (fun acc i => max acc (inputEnd i)) total

/-- The ffmpeg invocations of `_createCompositeAudioTrack` that touch the
composite, in order. -/
inductive AudioOp where
  | genSilence (dur : ℚ)
  | extractSegment (segStart segLen : ℚ)
  | mixOp (nInputs : ℕ) (weights : List ℚ) (normalizeDuringSum : Bool)
      (durationLongest : Bool)
  | loudnormOp (i lra tp : ℚ)
  | renameSilent
deriving DecidableEq

/-- Subprocess trace of `_createCompositeAudioTrack`: generate the silence
base, cut the countdown segment files, then either run one `amix` with equal
`weights=1.0 ...` and `normalize=0` followed by exactly one final
`loudnorm=I=-16:LRA=11:TP=-1.5` pass, or (with no inputs) rename the silence. -/
def compositeTrace (comps : List Component) (files : List ComponentAudioInfo)
    (useFx : Bool) (fxIntro fxCountdown fxAnswer : Option ℚ) : List AudioOp :=
  let total := totalDuration comps
  let inputs := buildMixInputs comps files useFx fxIntro fxCountdown fxAnswer
  let extracts := (List.insertionSort caLE files).flatMap fun f =>
    if f.ctype = "countdown".data then
      let segment_duration := (f.end_time - f.start_time) / 3
      (List.range 3).map fun (i : ℕ) => AudioOp.extractSegment ((i : ℚ) * segment_duration) segment_duration
    else []
  AudioOp.genSilence total :: extracts ++
    (if inputs.isEmpty then [AudioOp.renameSilent]
     else
       [AudioOp.mixOp (1 + inputs.length) (List.replicate (1 + inputs.length) 1) false true,
        AudioOp.loudnormOp (-16) 11 (-3 / 2)])

/-! ### Concrete scripts from the specification's scenarios -/

/-- Scenario A input script. -/
def scenarioA : List Char :=
  ("[0.0-5.0] QUESTION: What is the capital of France?\n[5.0-8.0] COUNTDOWN: 3-2-1\n[8.0-12.0] ANSWER: Paris\n[12.0-15.0] CTA: Follow us!").data

/-- Scenario B malformed input script. -/
def scenarioB : List Char := "garbage\n[BAD] X: y\n[0.0-5.0] QUESTION: Valid?".data

/-- A script consisting only of malformed lines. -/
def allBadScript : List Char := "garbage\n[BAD] X: y".data

/-- A grammatical line whose KIND is not one of the four documented kinds. -/
def fooScript : List Char := "[0.0-5.0] FOO: bar".data

/-- A script with two questions, two countdowns and two answers. -/
def twoQuizScript : List Char :=
  ("[0.0-3.0] QUESTION: Q one?\n[3.0-5.0] COUNTDOWN: 3-2-1\n[5.0-7.0] ANSWER: A one\n[7.0-10.0] QUESTION: Q two?\n[10.0-12.0] COUNTDOWN: 3-2-1\n[12.0-14.0] ANSWER: A two").data

/-! ### Helper lemmas about the parser -/

theorem mkCompat_all (all qs cds ans cta : List Component) (i : Option Component) :
    (mkCompat all qs cds ans cta i).all_components = all := by
  unfold mkCompat; split <;> rfl

theorem mkCompat_questions (all qs cds ans cta : List Component) (i : Option Component) :
    (mkCompat all qs cds ans cta i).questions = qs := by
  unfold mkCompat; split <;> rfl

theorem mkCompat_countdowns (all qs cds ans cta : List Component) (i : Option Component) :
    (mkCompat all qs cds ans cta i).countdowns = cds := by
  unfold mkCompat; split <;> rfl

theorem mkCompat_answers (all qs cds ans cta : List Component) (i : Option Component) :
    (mkCompat all qs cds ans cta i).answers = ans := by
  unfold mkCompat; split <;> rfl

theorem mkCompat_ctas (all qs cds ans cta : List Component) (i : Option Component) :
    (mkCompat all qs cds ans cta i).ctas = cta := by
  unfold mkCompat; split <;> rfl

theorem mkCompat_countdown?_none (all qs cds ans cta : List Component) (i : Option Component)
    (h : ¬(qs.length = 1 ∧ cds.length = 1 ∧ ans.length = 1)) :
    (mkCompat all qs cds ans cta i).countdown? = none := by
  unfold mkCompat
  split
  · rename_i q cd a heq
    exact absurd ⟨by simp_all, by simp_all, by simp_all⟩ h
  · rfl

theorem parse_eq_mkCompat (s t : List Char) (d : ℚ) :
    ∃ all qs cds ans cta i, parseQuizScript s t d = mkCompat all qs cds ans cta i := by
  unfold parseQuizScript
  split
  · exact ⟨_, _, _, _, _, _, rfl⟩
  · exact ⟨_, _, _, _, _, _, rfl⟩

/-! ### Claim theorems -/

/-- Claim C7: every COUNTDOWN component's slot `[start_time, end_time]` is
divided into three equal consecutive thirds labelled "3", "2", "1" in that
order; for a countdown spanning `[5.0, 8.0]` the sub-segments are exactly
`[5,6)→"3"`, `[6,7)→"2"`, `[7,8)→"1"`. -/
theorem countdown_segments_equal_thirds (c : Component) :
    generateCountdownSegmentsForComponent c =
      [ (c.start_time, c.start_time + (c.end_time - c.start_time) / 3, "3".data),
        (c.start_time + (c.end_time - c.start_time) / 3,
          c.start_time + 2 * ((c.end_time - c.start_time) / 3), "2".data),
        (c.start_time + 2 * ((c.end_time - c.start_time) / 3), c.end_time, "1".data) ] ∧
    generateCountdownSegmentsForComponent ⟨5, 8, "3-2-1".data, "countdown".data⟩ =
      [(5, 6, "3".data), (6, 7, "2".data), (7, 8, "1".data)] := by
  constructor
  · simp only [generateCountdownSegmentsForComponent, List.cons.injEq, Prod.mk.injEq]
    norm_num
    ring
  · decide

/-- Claim C5: lines that do not match the grammar produce zero components and
no error; a script with zero matching lines parses to an empty component list,
and Scenario B's script parses to exactly the one valid QUESTION component. -/
theorem malformed_lines_skipped (script : List Char)
    (h : ∀ l ∈ splitNL (pyStrip script), matchTimestampLine (pyStrip l) = none) :
    (parseQuizScript script [] 0).all_components = [] ∧
    (parseQuizScript scenarioB [] 0).all_components =
      [⟨0, 5, "Valid?".data, "question".data⟩] := by
  constructor
  · have hraw : parseRawComponents script = [] := by
      unfold parseRawComponents
      rw [List.filterMap_eq_nil_iff]
      intro l hl
      simp only [List.mem_map] at hl
      obtain ⟨l0, hl0, rfl⟩ := hl
      by_cases he : (pyStrip l0).isEmpty
      · simp [he]
      · simp [he, h l0 hl0]
    simp [parseQuizScript, hraw, mkCompat]
  · decide

/-- Witness for C5 at the all-malformed script. -/
theorem malformed_lines_skipped_witness :
    (∀ l ∈ splitNL (pyStrip allBadScript), matchTimestampLine (pyStrip l) = none) ∧
    (parseQuizScript allBadScript [] 0).all_components = [] ∧
    (parseQuizScript scenarioB [] 0).all_components =
      [⟨0, 5, "Valid?".data, "question".data⟩] :=
  ⟨by decide, malformed_lines_skipped allBadScript (by decide)⟩

/-- Counterexample to claim C9: the line `[0.0-5.0] FOO: bar` has a KIND
outside {QUESTION, COUNTDOWN, ANSWER, CTA}, yet parsing produces one component
(of type "foo") in the timeline, not zero. -/
theorem unknown_kind_counterexample :
    (parseQuizScript fooScript [] 0).all_components.length = 1 ∧
    (parseQuizScript fooScript [] 0).all_components.map Component.ctype = ["foo".data] := by
  decide

/-- Claim C9 (amended): the regex accepts any word as KIND, so a grammatical
line with an unknown KIND still yields a timeline component whose type is the
lowercased KIND; only the per-kind lists are restricted to the four known
kinds. -/
theorem unknown_kind_amended (script t : List Char) (d : ℚ) :
    ((∀ c ∈ (parseQuizScript script t d).questions, c.ctype = "question".data) ∧
     (∀ c ∈ (parseQuizScript script t d).countdowns, c.ctype = "countdown".data) ∧
     (∀ c ∈ (parseQuizScript script t d).answers, c.ctype = "answer".data) ∧
     (∀ c ∈ (parseQuizScript script t d).ctas, c.ctype = "cta".data)) ∧
    ((parseQuizScript fooScript [] 0).all_components.map Component.ctype = ["foo".data] ∧
     (parseQuizScript fooScript [] 0).questions = [] ∧
     (parseQuizScript fooScript [] 0).countdowns = [] ∧
     (parseQuizScript fooScript [] 0).answers = [] ∧
     (parseQuizScript fooScript [] 0).ctas = []) := by
  refine ⟨?_, by decide⟩
  have hfilter : ∀ (k : List Char) (c : Component),
      c ∈ (parseRawComponents script).filter (fun c => c.ctype = k) → c.ctype = k := by
    intro k c hc
    simpa using (List.mem_filter.mp hc).2
  have hshift : ∀ (d' : ℚ) (k : List Char) (l : List Component),
      (∀ c ∈ l, c.ctype = k) → ∀ c ∈ l.map (shiftC d'), c.ctype = k := by
    intro d' k l hl c hc
    obtain ⟨c0, hc0, rfl⟩ := List.mem_map.mp hc
    exact hl c0 hc0
  unfold parseQuizScript
  split
  · refine ⟨?_, ?_, ?_, ?_⟩ <;>
      simp only [mkCompat_questions, mkCompat_countdowns, mkCompat_answers, mkCompat_ctas] <;>
      exact hshift d _ _ (hfilter _)
  · refine ⟨?_, ?_, ?_, ?_⟩ <;>
      simp only [mkCompat_questions, mkCompat_countdowns, mkCompat_answers, mkCompat_ctas] <;>
      exact hfilter _

theorem decimalValue_nonneg (ds fs : List Char) : 0 ≤ decimalValue ds fs := by
  unfold decimalValue
  positivity

theorem readNumber_nonneg (cs rest : List Char) (q : ℚ)
    (h : readNumber cs = some (q, rest)) : 0 ≤ q := by
  simp only [readNumber] at h
  repeat' split at h
  any_goals exact Option.noConfusion h
  all_goals
    simp only [Option.some.injEq, Prod.mk.injEq] at h
    obtain ⟨h1, -⟩ := h
    rw [← h1]
    exact decimalValue_nonneg _ _

theorem matchTimestampLine_start_nonneg (cs : List Char) (st en : ℚ) (k ct : List Char)
    (h : matchTimestampLine cs = some (st, en, k, ct)) : 0 ≤ st := by
  simp only [matchTimestampLine] at h
  repeat' split at h
  any_goals exact Option.noConfusion h
  all_goals
    simp only [Option.some.injEq, Prod.mk.injEq] at h
    obtain ⟨h1, -⟩ := h
    rw [← h1]
    exact readNumber_nonneg _ _ _ (by assumption)

theorem raw_start_nonneg (s : List Char) : ∀ c ∈ parseRawComponents s, 0 ≤ c.start_time := by
  intro c hc
  unfold parseRawComponents at hc
  rw [List.mem_filterMap] at hc
  obtain ⟨l, -, hf⟩ := hc
  split at hf
  · exact Option.noConfusion hf
  · rw [Option.map_eq_some'] at hf
    obtain ⟨r, hr, rfl⟩ := hf
    obtain ⟨st, en, k, ct⟩ := r
    exact matchTimestampLine_start_nonneg _ st en k ct hr

theorem shift_le_iff (d : ℚ) (a b : Component) :
    compLE a b ↔ compLE (shiftC d a) (shiftC d b) := by
  simp [compLE, shiftC]

/-- All parse results are sorted by `start_time` (the final `.sort`). -/
theorem parse_all_sorted (s t : List Char) (d : ℚ) :
    List.Sorted compLE (parseQuizScript s t d).all_components := by
  unfold parseQuizScript
  split_ifs <;> (rw [mkCompat_all]; exact List.sorted_insertionSort compLE _)

/-- Claim C3: when `intro_text` is non-empty and `intro_duration > 0`, parsing
shifts every parsed component by exactly `intro_duration`, prepends an INTRO
component spanning `[0, intro_duration)`, keeps the list sorted by start time,
and on Scenario A's script with `intro_duration = 2.0` yields the shifted
timeline with `total_duration = 17`. -/
theorem intro_insertion_shifts (script t : List Char) (d : ℚ)
    (ht : t ≠ []) (hd : 0 < d) :
    (parseQuizScript script t d).all_components =
      (⟨0, d, t, "intro".data⟩ : Component) ::
        (parseQuizScript script [] 0).all_components.map (shiftC d) ∧
    List.Sorted compLE (parseQuizScript script t d).all_components ∧
    (parseQuizScript scenarioA "Intro!".data 2).all_components =
      [⟨0, 2, "Intro!".data, "intro".data⟩,
       ⟨2, 7, "What is the capital of France?".data, "question".data⟩,
       ⟨7, 10, "3-2-1".data, "countdown".data⟩,
       ⟨10, 14, "Paris".data, "answer".data⟩,
       ⟨14, 17, "Follow us!".data, "cta".data⟩] ∧
    totalDuration (parseQuizScript scenarioA "Intro!".data 2).all_components = 17 := by
  have hcond : ¬t.isEmpty = true ∧ 0 < d := ⟨by simpa using ht, hd⟩
  refine ⟨?_, parse_all_sorted script t d, by decide, by decide⟩
  have hmap : (List.insertionSort compLE (parseRawComponents script)).map (shiftC d) =
      List.insertionSort compLE ((parseRawComponents script).map (shiftC d)) :=
    List.map_insertionSort compLE compLE (shiftC d) _
      (fun a _ b _ => shift_le_iff d a b)
  unfold parseQuizScript
  rw [if_pos hcond, if_neg (by simp)]
  rw [mkCompat_all, mkCompat_all, hmap]
  rw [List.insertionSort_cons]
  intro b hb
  obtain ⟨b0, hb0, rfl⟩ := List.mem_map.mp hb
  have h0 := raw_start_nonneg script b0 hb0
  show (0:ℚ) ≤ _
  simp only [shiftC]
  linarith

/-- Witness for C3 at Scenario A with intro duration 2. -/
theorem intro_insertion_shifts_witness :
    "Intro!".data ≠ [] ∧ (0:ℚ) < 2 ∧
    (parseQuizScript scenarioA "Intro!".data 2).all_components =
      (⟨0, 2, "Intro!".data, "intro".data⟩ : Component) ::
        (parseQuizScript scenarioA [] 0).all_components.map (shiftC 2) ∧
    totalDuration (parseQuizScript scenarioA "Intro!".data 2).all_components = 17 :=
  ⟨by decide, by norm_num,
    (intro_insertion_shifts scenarioA "Intro!".data 2 (by decide) (by norm_num)).1,
    (intro_insertion_shifts scenarioA "Intro!".data 2 (by decide) (by norm_num)).2.2.2⟩

/-- Claim C10: `get_countdown_segments` returns `[]` whenever the parsed
script does not have exactly one question, one countdown and one answer. -/
theorem countdown_segments_need_single_quiz (script t : List Char) (d : ℚ)
    (h : ¬((parseQuizScript script t d).questions.length = 1 ∧
           (parseQuizScript script t d).countdowns.length = 1 ∧
           (parseQuizScript script t d).answers.length = 1)) :
    get_countdown_segments (parseQuizScript script t d) = [] := by
  obtain ⟨all, qs, cds, ans, cta, i, heq⟩ := parse_eq_mkCompat script t d
  rw [heq] at h ⊢
  rw [mkCompat_questions, mkCompat_countdowns, mkCompat_answers] at h
  unfold get_countdown_segments generateCountdownSegments
  rw [mkCompat_countdown?_none all qs cds ans cta i h]

/-- Witness for C10: a two-question script has countdown components in its
timeline yet yields no countdown segments. -/
theorem countdown_segments_need_single_quiz_witness :
    ¬((parseQuizScript twoQuizScript [] 0).questions.length = 1 ∧
      (parseQuizScript twoQuizScript [] 0).countdowns.length = 1 ∧
      (parseQuizScript twoQuizScript [] 0).answers.length = 1) ∧
    get_countdown_segments (parseQuizScript twoQuizScript [] 0) = [] ∧
    (parseQuizScript twoQuizScript [] 0).countdowns.length = 2 :=
  ⟨by decide, countdown_segments_need_single_quiz twoQuizScript [] 0 (by decide), by decide⟩

/-- Claim C8, evaluated on the code: Scenario A parses to 4 components with
`total_duration = 15`, the COUNTDOWN component produces no caption, but the
caption list has 8 entries, not 3: the engine is always vertical
(`isVerticalFormat=True`), so `max_len = 15` and the 30-character question is
split into 6 single-word chunks. -/
theorem scenarioA_caption_eval :
    (parseQuizScript scenarioA [] 0).all_components.length = 4 ∧
    totalDuration (parseQuizScript scenarioA [] 0).all_components = 15 ∧
    (generateQuizTimedCaptions (parseQuizScript scenarioA [] 0) true).length = 8 ∧
    (∀ cap ∈ generateQuizTimedCaptions (parseQuizScript scenarioA [] 0) true,
      cap.2 ≠ "3-2-1".data) ∧
    (generateQuizTimedCaptions (parseQuizScript scenarioA [] 0) true).map
        (fun cap => cap.2) =
      ["What".data, "is".data, "the".data, "capital".data, "of".data, "France?".data,
       "Paris".data, "Follow us!".data] := by
  refine ⟨by decide, by decide, by decide, by decide, by decide⟩

/-- Claim C4 (amended): with `0 < quiz_duration < source_duration` and random
draw `r ∈ [0,1]`, the selected window starts at a random offset within
`[0, max 0 (source_duration - quiz_duration - safety_margin)]`, satisfies
`0 ≤ start` and `start + quiz_duration ≤ source_duration`, and has length
exactly `quiz_duration`. -/
theorem video_window_containment (vd qd r : ℚ)
    (hq : 0 < qd) (hlt : qd < vd) (hr0 : 0 ≤ r) (hr1 : r ≤ 1) :
    0 ≤ (calculate_video_timing vd qd r).1 ∧
    (calculate_video_timing vd qd r).1 + qd ≤ vd ∧
    (calculate_video_timing vd qd r).2 = (calculate_video_timing vd qd r).1 + qd ∧
    (calculate_video_timing vd qd r).1 ≤ max 0 (vd - qd - min (vd * (1 / 10)) 5) := by
  have hvd : 0 < vd := lt_trans hq hlt
  have hne : ¬(vd ≤ qd ∨ vd = 0) := by
    push_neg
    exact ⟨hlt, ne_of_gt hvd⟩
  simp only [calculate_video_timing]
  rw [if_neg (not_le.mpr hq), if_neg hne]
  set sm := min (vd * (1 / 10)) (5:ℚ) with hsm
  have hsm0 : 0 ≤ sm := le_min (by positivity) (by norm_num)
  set ms := max 0 (vd - qd - sm) with hms
  have hms0 : 0 ≤ ms := le_max_left _ _
  have hmsle : ms ≤ vd - qd := max_le (by linarith) (by linarith)
  by_cases hpos : 0 < ms
  · rw [if_pos hpos]
    dsimp only
    have h1 : 0 ≤ r * ms := mul_nonneg hr0 hms0
    have h2 : r * ms ≤ ms := mul_le_of_le_one_left hms0 hr1
    exact ⟨h1, by linarith, rfl, h2⟩
  · rw [if_neg hpos]
    dsimp only
    exact ⟨le_refl 0, by linarith, rfl, hms0⟩

/-- Witness for C4 (amended) at `vd = 100`, `qd = 10`, `r = 1/2`. -/
theorem video_window_containment_witness :
    (0:ℚ) < 10 ∧ (10:ℚ) < 100 ∧ (0:ℚ) ≤ 1/2 ∧ (1:ℚ)/2 ≤ 1 ∧
    (0 ≤ (calculate_video_timing 100 10 (1/2)).1 ∧
     (calculate_video_timing 100 10 (1/2)).1 + 10 ≤ 100 ∧
     (calculate_video_timing 100 10 (1/2)).2 = (calculate_video_timing 100 10 (1/2)).1 + 10 ∧
     (calculate_video_timing 100 10 (1/2)).1 ≤ max 0 (100 - 10 - min (100 * (1 / 10)) 5)) :=
  ⟨by norm_num, by norm_num, by norm_num, by norm_num,
    video_window_containment 100 10 (1/2) (by norm_num) (by norm_num) (by norm_num) (by norm_num)⟩

/-- Counterexample to claim C4 as stated: for
`source_duration = 10.5`, `quiz_duration = 10` the interval
`[0, source_duration - quiz_duration - safety_margin]` is empty (its upper
bound is negative), yet the code still chooses `start = 0`, which therefore
does not lie in the claimed interval. -/
theorem video_window_counterexample :
    (calculate_video_timing (21/2) 10 1).1 = 0 ∧
    ¬((calculate_video_timing (21/2) 10 1).1 ≤ 21/2 - 10 - min ((21/2) * (1 / 10)) 5) := by
  refine ⟨by decide, by decide⟩

/-- Claim C2: with a positive measured duration and a positive slot, if
`actual_duration <= required_duration` the clip is used as-is (no stretch, no
padding); if `actual_duration > required_duration` a pitch-preserving stretch
with `speed_factor = actual/required` is applied and the result differs from
`required_duration` only by the `.3f` rounding of the factor: at most
`required/2000`, hence within the spec's ±0.15 s for slots up to 300 s. -/
theorem fit_duration_spec (actual required : ℚ) (hreq : 0 < required) (hact : 0 < actual) :
    (actual ≤ required →
      fitComponentAudio actual required = ⟨actual, false, actual / required⟩) ∧
    (required < actual →
      (fitComponentAudio actual required).stretched = true ∧
      (fitComponentAudio actual required).speed_factor = actual / required ∧
      |(fitComponentAudio actual required).duration - required| ≤ required / 2000 ∧
      (required ≤ 300 →
        |(fitComponentAudio actual required).duration - required| ≤ 3 / 20)) := by
  simp only [fitComponentAudio]
  rw [if_pos hact]
  constructor
  · intro hle
    rw [if_neg (by rw [one_lt_div hreq]; exact not_lt.mpr hle)]
  · intro hgt
    have hs1 : 1 < actual / required := (one_lt_div hreq).mpr hgt
    rw [if_pos hs1]
    refine ⟨rfl, rfl, ?_⟩
    set s := actual / required with hs_def
    have hact_eq : actual = s * required := by
      rw [hs_def]; field_simp
    set k : ℤ := round (1000 * s) with hk_def
    have hrk : |1000 * s - (k : ℚ)| ≤ 1 / 2 := abs_sub_round (1000 * s)
    have hrk' := abs_le.mp hrk
    have hs1000 : (1000 : ℚ) < 1000 * s := by linarith
    have hkq : (999 : ℚ) < (k : ℚ) := by linarith
    have hk1000 : (1000 : ℤ) ≤ k := by
      have : (999 : ℤ) < k := by exact_mod_cast hkq
      omega
    have hkq1000 : (1000 : ℚ) ≤ (k : ℚ) := by exact_mod_cast hk1000
    have hkpos : (0 : ℚ) < (k : ℚ) := by linarith
    have hround3 : round3 s = (k : ℚ) / 1000 := by rw [round3, hk_def]
    have hkey : actual / round3 s - required = required * ((1000 * s - k) / k) := by
      rw [hround3, hact_eq]
      field_simp
      ring
    have hbound : |actual / round3 s - required| ≤ required / 2000 := by
      rw [hkey, abs_mul, abs_of_pos hreq, abs_div, abs_of_pos hkpos]
      have h1 : |1000 * s - (k : ℚ)| / (k : ℚ) ≤ (1 / 2) / 1000 :=
        div_le_div₀ (by norm_num) hrk (by norm_num) hkq1000
      calc required * (|1000 * s - (k : ℚ)| / (k : ℚ))
          ≤ required * ((1 / 2) / 1000) :=
            mul_le_mul_of_nonneg_left h1 (le_of_lt hreq)
        _ = required / 2000 := by ring
    exact ⟨hbound, fun h300 => le_trans hbound (by linarith)⟩

/-- Witness for C2: stretching branch at `actual = 6`, `required = 4` and
as-is branch recorded through the same theorem at `actual = 3`. -/
theorem fit_duration_spec_witness :
    (0 : ℚ) < 4 ∧ (0 : ℚ) < 6 ∧ (4 : ℚ) < 6 ∧
    (fitComponentAudio 6 4).stretched = true ∧
    (fitComponentAudio 6 4).speed_factor = 6 / 4 ∧
    |(fitComponentAudio 6 4).duration - 4| ≤ 4 / 2000 ∧
    ((4 : ℚ) ≤ 300 → |(fitComponentAudio 6 4).duration - 4| ≤ 3 / 20) ∧
    ((3 : ℚ) ≤ 4 → fitComponentAudio 3 4 = ⟨3, false, 3 / 4⟩) :=
  ⟨by norm_num, by norm_num, by norm_num,
    ((fit_duration_spec 6 4 (by norm_num) (by norm_num)).2 (by norm_num)).1,
    ((fit_duration_spec 6 4 (by norm_num) (by norm_num)).2 (by norm_num)).2.1,
    ((fit_duration_spec 6 4 (by norm_num) (by norm_num)).2 (by norm_num)).2.2.1,
    ((fit_duration_spec 6 4 (by norm_num) (by norm_num)).2 (by norm_num)).2.2.2,
    (fit_duration_spec 3 4 (by norm_num) (by norm_num)).1⟩

theorem pyIntTrunc_le (q : ℚ) (hq : 0 ≤ q) : (pyIntTrunc q : ℚ) ≤ q := by
  unfold pyIntTrunc
  rw [if_pos hq]
  exact Int.floor_le q

theorem extractedSegDuration_le (a s l : ℚ) (hl : 0 ≤ l) :
    extractedSegDuration a s l ≤ l :=
  max_le hl (min_le_left _ _)

theorem foldl_max_fixed (T : ℚ) (l : List MixInput)
    (h : ∀ i ∈ l, inputEnd i ≤ T) :
    l.foldl (fun acc i => max acc (inputEnd i)) T = T := by
  induction l with
  | nil => rfl
  | cons i is ih =>
    simp only [List.foldl_cons]
    rw [max_eq_left (h i (List.mem_cons_self i is))]
    exact ih fun j hj => h j (List.mem_cons_of_mem _ hj)

theorem fileMixInputs_end_le (T : ℚ) (f : ComponentAudioInfo)
    (h0 : 0 ≤ f.start_time) (h1 : f.start_time ≤ f.end_time)
    (h2 : f.duration ≤ f.end_time - f.start_time) (h3 : f.end_time ≤ T) :
    ∀ i ∈ fileMixInputs f, inputEnd i ≤ T := by
  intro i hi
  unfold fileMixInputs at hi
  split_ifs at hi
  · obtain ⟨n, hn, rfl⟩ := List.mem_map.mp hi
    rw [List.mem_range] at hn
    set sd := (f.end_time - f.start_time) / 3 with hsd
    have hsd0 : 0 ≤ sd := div_nonneg (by linarith) (by norm_num)
    have hds : (0 : ℚ) ≤ (f.start_time + n * sd) * 1000 := by positivity
    have htr := pyIntTrunc_le _ hds
    have hex : extractedSegDuration f.duration (n * sd) sd ≤ sd :=
      extractedSegDuration_le _ _ _ hsd0
    have hn2 : ((n : ℚ) + 1) ≤ 3 := by
      have : (n : ℚ) ≤ 2 := by exact_mod_cast Nat.lt_succ_iff.mp hn
      linarith
    have hseg : ((n : ℚ) + 1) * sd ≤ 3 * sd := mul_le_mul_of_nonneg_right hn2 hsd0
    have hend : f.start_time + 3 * sd = f.end_time := by rw [hsd]; ring
    unfold inputEnd
    dsimp only
    nlinarith [htr]
  · rw [List.mem_singleton] at hi
    subst hi
    have hds : (0 : ℚ) ≤ f.start_time * 1000 := by positivity
    have htr := pyIntTrunc_le _ hds
    unfold inputEnd
    dsimp only
    linarith

theorem fxInputs_end_le (T : ℚ) (fxI fxC fxA : Option ℚ) (c : Component)
    (h0 : 0 ≤ c.start_time) (h1 : c.start_time ≤ c.end_time)
    (hI : ∀ d, fxI = some d → c.ctype = "intro".data → c.start_time + d ≤ T)
    (hC : ∀ d, fxC = some d → c.ctype = "countdown".data →
      c.start_time + 2 * ((c.end_time - c.start_time) / 3) + d ≤ T)
    (hA : ∀ d, fxA = some d → c.ctype = "answer".data → c.start_time + d ≤ T) :
    ∀ i ∈ soundEffectInputsFor fxI fxC fxA c, inputEnd i ≤ T := by
  intro i hi
  unfold soundEffectInputsFor at hi
  split_ifs at hi with hintro hcd hans
  · rcases hfx : fxI with _ | d <;> rw [hfx] at hi
    · simp at hi
    · rw [List.mem_singleton] at hi
      subst hi
      have htr := pyIntTrunc_le _ (by positivity : (0:ℚ) ≤ c.start_time * 1000)
      have := hI d hfx hintro
      unfold inputEnd
      dsimp only
      linarith
  · rcases hfx : fxC with _ | d <;> rw [hfx] at hi
    · simp at hi
    · obtain ⟨n, hn, rfl⟩ := List.mem_map.mp hi
      rw [List.mem_range] at hn
      set sd := (c.end_time - c.start_time) / 3 with hsd
      have hsd0 : 0 ≤ sd := div_nonneg (by linarith) (by norm_num)
      have hds : (0 : ℚ) ≤ (c.start_time + n * sd) * 1000 := by positivity
      have htr := pyIntTrunc_le _ hds
      have hn2 : (n : ℚ) ≤ 2 := by exact_mod_cast Nat.lt_succ_iff.mp hn
      have hseg : (n : ℚ) * sd ≤ 2 * sd := mul_le_mul_of_nonneg_right hn2 hsd0
      have := hC d hfx hcd
      unfold inputEnd
      dsimp only
      nlinarith [htr]
  · rcases hfx : fxA with _ | d <;> rw [hfx] at hi
    · simp at hi
    · rw [List.mem_singleton] at hi
      subst hi
      have htr := pyIntTrunc_le _ (by positivity : (0:ℚ) ≤ c.start_time * 1000)
      have := hA d hfx hans
      unfold inputEnd
      dsimp only
      linarith
  · simp at hi

/-- Claim C1 (amended): with `amix ... duration=longest` over the
`total_duration` silence base, the composite lasts exactly `total_duration`
provided every delayed input ends inside the timeline — in particular whenever
every component audio file fits its slot (`duration ≤ end - start`), slots end
by `total_duration`, and every enabled sound effect ends by `total_duration`. -/
theorem composite_duration_eq_total (comps : List Component)
    (files : List ComponentAudioInfo) (useFx : Bool) (fxI fxC fxA : Option ℚ)
    (hf : ∀ f ∈ files, 0 ≤ f.start_time ∧ f.start_time ≤ f.end_time ∧
      f.duration ≤ f.end_time - f.start_time ∧ f.end_time ≤ totalDuration comps)
    (hc : useFx = true → ∀ c ∈ comps, 0 ≤ c.start_time ∧ c.start_time ≤ c.end_time ∧
      (∀ d, fxI = some d → c.ctype = "intro".data →
        c.start_time + d ≤ totalDuration comps) ∧
      (∀ d, fxC = some d → c.ctype = "countdown".data →
        c.start_time + 2 * ((c.end_time - c.start_time) / 3) + d ≤ totalDuration comps) ∧
      (∀ d, fxA = some d → c.ctype = "answer".data →
        c.start_time + d ≤ totalDuration comps)) :
    compositeAudioDuration comps files useFx fxI fxC fxA = totalDuration comps := by
  have hall : ∀ i ∈ buildMixInputs comps files useFx fxI fxC fxA,
      inputEnd i ≤ totalDuration comps := by
    intro i hi
    unfold buildMixInputs at hi
    rw [List.mem_append] at hi
    rcases hi with hi | hi
    · unfold componentMixInputs at hi
      rw [List.mem_flatMap] at hi
      obtain ⟨f, hfmem, hif⟩ := hi
      rw [List.mem_insertionSort] at hfmem
      obtain ⟨h0, h1, h2, h3⟩ := hf f hfmem
      exact fileMixInputs_end_le _ f h0 h1 h2 h3 i hif
    · split_ifs at hi with hfx
      · rw [List.mem_flatMap] at hi
        obtain ⟨c, hcmem, hic⟩ := hi
        obtain ⟨h0, h1, hI, hC, hA⟩ := hc hfx c hcmem
        exact fxInputs_end_le _ fxI fxC fxA c h0 h1 hI hC hA i hic
      · simp at hi
  simp only [compositeAudioDuration]
  split_ifs with hemp
  · rfl
  · exact foldl_max_fixed _ _ hall

/-- Witness for C1 (amended): Scenario A's four components with fitted audio
durations inside their slots mix to a composite of exactly 15 seconds. -/
theorem composite_duration_eq_total_witness :
    (∀ f ∈ ([⟨0, 5, "question".data, 9/2⟩, ⟨5, 8, "countdown".data, 3⟩,
             ⟨8, 12, "answer".data, 2⟩, ⟨12, 15, "cta".data, 3⟩] :
        List ComponentAudioInfo),
      0 ≤ f.start_time ∧ f.start_time ≤ f.end_time ∧
      f.duration ≤ f.end_time - f.start_time ∧
      f.end_time ≤ totalDuration (parseQuizScript scenarioA [] 0).all_components) ∧
    compositeAudioDuration (parseQuizScript scenarioA [] 0).all_components
      [⟨0, 5, "question".data, 9/2⟩, ⟨5, 8, "countdown".data, 3⟩,
       ⟨8, 12, "answer".data, 2⟩, ⟨12, 15, "cta".data, 3⟩] false none none none =
      totalDuration (parseQuizScript scenarioA [] 0).all_components :=
  ⟨by decide,
    composite_duration_eq_total _ _ false none none none (by decide)
      (fun h => Bool.noConfusion h)⟩

/-- Counterexample to claim C1 as stated: a single parsed answer component on
`[0, 5]` whose audio asset lasts 10 s (the fitter's probe-failure path copies
the clip unstretched) yields a composite of 10 s, not `total_duration = 5` —
`amix duration=longest` extends past the silence base. -/
theorem composite_duration_counterexample :
    totalDuration [⟨0, 5, "Paris".data, "answer".data⟩] = 5 ∧
    compositeAudioDuration [⟨0, 5, "Paris".data, "answer".data⟩]
      [⟨0, 5, "answer".data, 10⟩] false none none none = 10 ∧
    compositeAudioDuration [⟨0, 5, "Paris".data, "answer".data⟩]
      [⟨0, 5, "answer".data, 10⟩] false none none none ≠
      totalDuration [⟨0, 5, "Paris".data, "answer".data⟩] := by
  refine ⟨by decide, by decide, by decide⟩

/-- Claim C6: whenever the mix runs (at least one input), the single `amix`
sums the silence base and every delayed input with equal weights `1.0` and
`normalize=0`, with `duration=longest`, and it is followed by exactly one
final `loudnorm` pass over the whole composite — every earlier operation is
only silence generation or countdown-segment extraction, and nothing follows
the loudnorm. -/
theorem mix_equal_weights_single_loudnorm (comps : List Component)
    (files : List ComponentAudioInfo) (useFx : Bool) (fxI fxC fxA : Option ℚ)
    (h : buildMixInputs comps files useFx fxI fxC fxA ≠ []) :
    ∃ pre,
      compositeTrace comps files useFx fxI fxC fxA =
        pre ++
          [AudioOp.mixOp (1 + (buildMixInputs comps files useFx fxI fxC fxA).length)
            (List.replicate (1 + (buildMixInputs comps files useFx fxI fxC fxA).length) 1)
            false true,
           AudioOp.loudnormOp (-16) 11 (-3 / 2)] ∧
      (∀ w ∈ List.replicate
          (1 + (buildMixInputs comps files useFx fxI fxC fxA).length) (1 : ℚ), w = 1) ∧
      (∀ op ∈ pre, op = AudioOp.genSilence (totalDuration comps) ∨
        ∃ s l, op = AudioOp.extractSegment s l) := by
  refine ⟨AudioOp.genSilence (totalDuration comps) ::
      ((List.insertionSort caLE files).flatMap fun f =>
        if f.ctype = "countdown".data then
          (List.range 3).map fun (i : ℕ) =>
            AudioOp.extractSegment ((i : ℚ) * ((f.end_time - f.start_time) / 3))
              ((f.end_time - f.start_time) / 3)
        else []), ?_, ?_, ?_⟩
  · simp only [compositeTrace]
    rw [if_neg (by simpa using h)]
  · intro w hw
    exact List.eq_of_mem_replicate hw
  · intro op hop
    rcases List.mem_cons.mp hop with h1 | h1
    · exact Or.inl h1
    · right
      rw [List.mem_flatMap] at h1
      obtain ⟨f, -, hf⟩ := h1
      split_ifs at hf
      · obtain ⟨n, -, rfl⟩ := List.mem_map.mp hf
        exact ⟨_, _, rfl⟩
      · simp at hf

/-- Witness for C6 at a concrete one-component mix. -/
theorem mix_equal_weights_single_loudnorm_witness :
    buildMixInputs [⟨0, 5, "Paris".data, "answer".data⟩]
      [⟨0, 5, "answer".data, 4⟩] false none none none ≠ [] ∧
    (∃ pre,
      compositeTrace [⟨0, 5, "Paris".data, "answer".data⟩]
        [⟨0, 5, "answer".data, 4⟩] false none none none =
        pre ++
          [AudioOp.mixOp (1 + (buildMixInputs [⟨0, 5, "Paris".data, "answer".data⟩]
              [⟨0, 5, "answer".data, 4⟩] false none none none).length)
            (List.replicate (1 + (buildMixInputs [⟨0, 5, "Paris".data, "answer".data⟩]
              [⟨0, 5, "answer".data, 4⟩] false none none none).length) 1)
            false true,
           AudioOp.loudnormOp (-16) 11 (-3 / 2)] ∧
      (∀ w ∈ List.replicate (1 + (buildMixInputs [⟨0, 5, "Paris".data, "answer".data⟩]
          [⟨0, 5, "answer".data, 4⟩] false none none none).length) (1 : ℚ), w = 1) ∧
      (∀ op ∈ pre,
        op = AudioOp.genSilence
          (totalDuration [⟨0, 5, "Paris".data, "answer".data⟩]) ∨
        ∃ s l, op = AudioOp.extractSegment s l)) :=
  ⟨by decide,
    mix_equal_weights_single_loudnorm [⟨0, 5, "Paris".data, "answer".data⟩]
      [⟨0, 5, "answer".data, 4⟩] false none none none (by decide)⟩

end ShortGPT
